import Mathlib

/-!
Verification of the crawl-frontier engine of the URL_scraper repository.

The Python sources (`Url_finder.py`, `url_finder2.py`, `url_finder3.py`,
`url_scraper.py`) are shallowly embedded below.  Strings are modelled as
`List Char` (`Str`), matching Python's code-point semantics for the string
operations the sources use (`in`, `endswith`, `split`, `join`, `strip`,
`lower`, lexicographic comparison).  Network effects are abstracted by
passing the response of every fetch as an explicit parameter (`web`
functions map a URL to the links its page yields, `none` meaning the fetch
failed), and HTML parsing is abstracted by passing the parsed document
(the list of anchor/link hrefs plus the optional meta-refresh target)
directly to the link extractor.  `urllib.parse.urlparse` and `urljoin`
are modelled on the hierarchical subset of URLs the analyzer works with
(`scheme://netloc/path`, root-relative and plain relative references).
-/

/-- Python strings, modelled as lists of code points. -/
abbrev Str := List Char

/-- Boolean test that `x` occurs in the list `l` (Python `in` on a list or set). -/
def memB (x : Str) (l : List Str) : Bool :=
  l.any (fun y => x = y)

/-- First list is a leading block of the second list. -/
def leadsL : Str → Str → Bool
  | [], _ => true
  | _ :: _, [] => false
  | a :: as, b :: bs => if a = b then leadsL as bs else false

/-- Python substring test `needle in hay`. -/
def containsL (needle : Str) : Str → Bool
  | [] => needle.isEmpty
  | c :: rest => leadsL needle (c :: rest) || containsL needle rest

/-- Python `hay.endswith(tail)`. -/
def endsWithL (hay tail : Str) : Bool :=
  leadsL tail.reverse hay.reverse

/-- Python `s.split(sep)` for a single-character separator. -/
def splitOnChar (sep : Char) : Str → List Str
  | [] => [[]]
  | x :: xs =>
    let r := splitOnChar sep xs
    if x = sep then [] :: r
    else
      match r with
      | [] => [[x]]
      | h :: t => (x :: h) :: t

/-- Python `sep.join(parts)` for a single-character separator. -/
def joinWith (sep : Char) : List Str → Str
  | [] => []
  | [x] => x
  | x :: y :: t => x ++ sep :: joinWith sep (y :: t)

/-- Python `s.rstrip(c)` for a single-character argument. -/
def rstripChar (c : Char) (l : Str) : Str :=
  (l.reverse.dropWhile (fun x => x = c)).reverse

/-- Python `s.lstrip(c)` for a single-character argument. -/
def lstripChar (c : Char) (l : Str) : Str :=
  l.dropWhile (fun x => x = c)

/-- Whitespace set used by Python `str.strip()` (the characters that occur here). -/
def isSpaceChar (c : Char) : Bool :=
  c = ' ' || c = '\t' || c = '\n' || c = '\r'

/-- Python `s.strip()`. -/
def pyStrip (l : Str) : Str :=
  ((l.dropWhile isSpaceChar).reverse.dropWhile isSpaceChar).reverse

/-- Python `s.lower()` on the ASCII range the analyzer handles. -/
def pyLower (l : Str) : Str :=
  l.map Char.toLower

/-- Python string comparison `a < b` (lexicographic on code points). -/
def ltL : Str → Str → Bool
  | [], [] => false
  | [], _ :: _ => true
  | _ :: _, [] => false
  | a :: as, b :: bs => if a < b then true else if b < a then false else ltL as bs

/-- Result of `urllib.parse.urlparse` restricted to the fields the analyzer reads. -/
structure ParsedUrl where
  scheme : Str
  netloc : Str
  path : Str
deriving DecidableEq, Repr

/-- Split a string at its first colon, returning the parts before and after it. -/
def splitColon : Str → Option (Str × Str)
  | [] => none
  | c :: rest =>
    if c = ':' then some ([], rest)
    else
      match splitColon rest with
      | none => none
      | some (a, b) => some (c :: a, b)

/-- Split a netloc-plus-path string at the first slash. -/
def splitSlash : Str → Str × Str
  | [] => ([], [])
  | c :: rest =>
    if c = '/' then ([], c :: rest)
    else
      let r := splitSlash rest
      (c :: r.1, r.2)

/-- Model of `urllib.parse.urlparse` on hierarchical URLs: a `scheme:`
followed by `//netloc` yields the netloc/path split; otherwise the input is
all path (scheme-only references keep their scheme and leave netloc empty). -/
def pyUrlparse (url : Str) : ParsedUrl :=
  match splitColon url with
  | none => ⟨[], [], url⟩
  | some (sch, rest) =>
    match rest with
    | '/' :: '/' :: hier =>
      let np := splitSlash hier
      ⟨pyLower sch, np.1, np.2⟩
    | _ => ⟨pyLower sch, [], rest⟩

/-- The directory part of a path: everything up to and including the final
slash, defaulting to the root when the base path has no directory. -/
def dirPart (path : Str) : Str :=
  let d := (path.reverse.dropWhile (fun c => !(c = '/'))).reverse
  if d = [] then ['/'] else d

/-- Model of `urllib.parse.urljoin` on the reference shapes the analyzer meets:
absolute references, scheme-relative, root-relative and plain relative hrefs. -/
def pyUrljoin (base href : Str) : Str :=
  if href = [] then base
  else if (splitColon href).isSome then href
  else
    let p := pyUrlparse base
    match href with
    | '/' :: '/' :: _ => p.scheme ++ ':' :: href
    | '/' :: rest => p.scheme ++ ':' :: '/' :: '/' :: (p.netloc ++ '/' :: rest)
    | _ => p.scheme ++ ':' :: '/' :: '/' :: (p.netloc ++ dirPart p.path ++ href)

/-- Structurally recursive `⌊log2⌋` (0 at 0 and 1), driven by a fuel equal
to the argument, so that it reduces inside the kernel. -/
def natLog2Aux : Nat → Nat → Nat
  | 0, _ => 0
  | fuel + 1, n => if n ≤ 1 then 0 else natLog2Aux fuel (n / 2) + 1

/-- `⌊log2 n⌋` for `n ≥ 1`: the position of the highest set bit. -/
def natLog2 (n : Nat) : Nat :=
  natLog2Aux n n

/-- A non-negative IEEE-754 binary64 value, represented exactly as
`mant * 2 ^ exp`.  The estimation code only ever produces non-negative values
far inside the normal range, so signs, subnormals, overflow and NaN never
arise. -/
structure Binary64 where
  mant : Nat
  exp : Int
deriving DecidableEq, Repr

/-- Round `m * 2 ^ e` to 53 significant bits, round-to-nearest with ties to
even — the binary64 rounding CPython's float arithmetic performs on an
exactly computed integer-scaled result. -/
def fpNormalize (m : Nat) (e : Int) : Binary64 :=
  if m = 0 then ⟨0, 0⟩
  else
    let b := natLog2 m
    if b ≤ 52 then ⟨m, e⟩
    else
      let sh := b - 52
      let d := 2 ^ sh
      let n0 := m / d
      let r := m % d
      let n :=
        if 2 * r < d then n0
        else if d < 2 * r then n0 + 1
        else if n0 % 2 = 0 then n0 else n0 + 1
      ⟨n, e + sh⟩

/-- The binary64 result of CPython's true division `a / b` of two
non-negative ints (`b > 0`): the correctly rounded quotient, computed from
the exactly scaled integer division so that ties are decided exactly. -/
def fpDivNat (a b : Nat) : Binary64 :=
  if a = 0 || b = 0 then ⟨0, 0⟩
  else
    let k : Int := (natLog2 ((a * 2 ^ 64) / b) : Int) - 64
    let sh : Int := 52 - k
    let nn := if 0 ≤ sh then a * 2 ^ sh.toNat else a
    let dd := if 0 ≤ sh then b else b * 2 ^ (-sh).toNat
    let n0 := nn / dd
    let r := nn % dd
    let n :=
      if 2 * r < dd then n0
      else if dd < 2 * r then n0 + 1
      else if n0 % 2 = 0 then n0 else n0 + 1
    ⟨n, k - 52⟩

/-- Binary64 multiplication: the exact product of the two represented values,
rounded once. -/
def fpMul (f g : Binary64) : Binary64 :=
  fpNormalize (f.mant * g.mant) (f.exp + g.exp)

/-- Conversion of a non-negative int to binary64 (exact below `2 ^ 53`),
as CPython performs before multiplying a float by an int. -/
def fpOfNat (n : Nat) : Binary64 :=
  fpNormalize n 0

/-- Python `int(...)` on a non-negative float: truncation toward zero. -/
def fpTrunc (f : Binary64) : Nat :=
  if 0 ≤ f.exp then f.mant * 2 ^ f.exp.toNat else f.mant / 2 ^ (-f.exp).toNat

namespace UrlFinder

/-- `SmartWebsiteAnalyzer.extract_domain` (Url_finder.py lines 37-40). -/
def extract_domain (url : Str) : Str :=
  (pyUrlparse url).netloc

/-- `SmartWebsiteAnalyzer.extract_base_domain` (Url_finder.py lines 42-48). -/
def extract_base_domain (url : Str) : Str :=
  let parsed := pyUrlparse url
  let domain_parts := splitOnChar '.' parsed.netloc
  if 2 ≤ domain_parts.length then
    joinWith '.' (domain_parts.drop (domain_parts.length - 2))
  else parsed.netloc

/-- `SmartWebsiteAnalyzer.is_valid_url` (Url_finder.py lines 50-56). -/
def is_valid_url (url : Str) : Bool :=
  let parsed := pyUrlparse url
  !parsed.netloc.isEmpty && !parsed.scheme.isEmpty

/-- Host-level core of `SmartWebsiteAnalyzer.is_same_domain`
(Url_finder.py line 106): `self.base_domain in url_domain or url_domain in self.domain`. -/
def is_same_domain_host (base_domain self_domain url_domain : Str) : Bool :=
  containsL base_domain url_domain || containsL url_domain self_domain

/-- `SmartWebsiteAnalyzer.is_same_domain` (Url_finder.py lines 101-108). -/
def is_same_domain (base_domain self_domain : Str) (url : Str) : Bool :=
  is_same_domain_host base_domain self_domain (pyUrlparse url).netloc

end UrlFinder

namespace UrlScraper

/-- `AdvancedWebsiteAnalyzer.get_base_domain` (url_scraper.py lines 39-44),
taking the already-extracted domain. -/
def get_base_domain (domain : Str) : Str :=
  let parts := splitOnChar '.' domain
  if 2 ≤ parts.length then
    joinWith '.' (parts.drop (parts.length - 2))
  else domain

end UrlScraper

/-- Insert into an ascending list (the comparison Python `sorted` uses). -/
def insertAsc (x : Str) : List Str → List Str
  | [] => [x]
  | y :: ys => if ltL x y then x :: y :: ys else y :: insertAsc x ys

/-- Model of Python `sorted(l)`: ascending lexicographic order. -/
def sortAsc : List Str → List Str
  | [] => []
  | x :: xs => insertAsc x (sortAsc xs)

/-- Model of Python `sorted(l, reverse=True)`: descending lexicographic order. -/
def sortDesc (l : List Str) : List Str :=
  (sortAsc l).reverse

/-- Performing `deque.appendleft` once per element of the first list, in order
(the idiom `for link in reversed(sorted(fresh)): queue.appendleft(link)`). -/
def appendLeftAll : List Str → List Str → List Str
  | [], q => q
  | x :: xs, q => appendLeftAll xs (x :: q)

namespace UrlFinder

/-- State of the `controlled_crawl` loop of Url_finder.py: the pending deque
`urls_to_crawl`, the `visited_urls` set, the `crawl_count` counter, and the
ordered log of fetch attempts (`get_page_content` calls) the loop performed. -/
structure CrawlState where
  queue : List Str
  visited : List Str
  crawl_count : Nat
  fetch_log : List Str
deriving DecidableEq, Repr

/-- One iteration of the while loop of `SmartWebsiteAnalyzer.controlled_crawl`
(Url_finder.py lines 199-225): `none` means the loop guard fails and the loop
exits.  `web` maps a URL to the links `extract_links_from_page` yields for its
page, `none` standing for a failed fetch.  The `classify_url` bookkeeping the
loop also performs is modelled separately by `classify_url` below. -/
def crawl_step (web : Str → Option (List Str)) (max_pages : Nat) (s : CrawlState) :
    Option CrawlState :=
  match s.queue with
  | [] => none
  | current :: rest =>
    if max_pages ≤ s.crawl_count then none
    else if memB current s.visited then
      some ⟨rest, s.visited, s.crawl_count, s.fetch_log⟩
    else
      let visited1 := current :: s.visited
      match web current with
      | none => some ⟨rest, visited1, s.crawl_count + 1, s.fetch_log ++ [current]⟩
      | some new_links =>
        let fresh_links := new_links.filter (fun l => !memB l visited1 && !memB l rest)
        some ⟨appendLeftAll (sortDesc fresh_links) rest, visited1,
              s.crawl_count + 1, s.fetch_log ++ [current]⟩

/-- The while loop of `controlled_crawl`, with an explicit iteration budget
(the loop always terminates; safety properties below hold for every budget). -/
def crawl_loop (web : Str → Option (List Str)) (max_pages : Nat) :
    Nat → CrawlState → CrawlState
  | 0, s => s
  | fuel + 1, s =>
    match crawl_step web max_pages s with
    | none => s
    | some s1 => crawl_loop web max_pages fuel s1

/-- `SmartWebsiteAnalyzer.controlled_crawl` (Url_finder.py lines 189-229):
the queue starts as `deque(sorted(self.initial_urls_found, reverse=True))`,
visited set empty and crawl count zero. -/
def controlled_crawl (web : Str → Option (List Str)) (max_pages fuel : Nat)
    (initial_urls : List Str) : CrawlState :=
  crawl_loop web max_pages fuel ⟨sortDesc initial_urls, [], 0, []⟩

end UrlFinder

namespace UrlFinder

/-- Outcome of the HTTP GET issued by `session.get` (after redirects): either a
final response with its status code and body text, or a raised exception
(network failure / timeout). -/
inductive FetchResult where
  | response (status : Nat) (body : Str)
  | failure
deriving DecidableEq, Repr

/-- `SmartWebsiteAnalyzer.get_page_content` (Url_finder.py lines 58-66): the
body text is returned only when `response.status_code == 200`; any other
status falls through to `return None`, and any exception is caught and also
yields `None`.  Totality of this function models the try/except boundary. -/
def get_page_content (r : FetchResult) : Option Str :=
  match r with
  | .response status body => if status = 200 then some body else none
  | .failure => none

/-- The f-string `f"{parsed.scheme}://{parsed.netloc}{parsed.path}"`
(Url_finder.py line 82). -/
def clean_full (full_url : Str) : Str :=
  (pyUrlparse full_url).scheme ++ ':' :: '/' :: '/' ::
    ((pyUrlparse full_url).netloc ++ (pyUrlparse full_url).path)

/-- Processing of one anchor/link-tag href by `extract_links_from_page`
(Url_finder.py lines 75-84): strip, skip when empty, resolve against the base,
keep only same-domain links, drop fragment/query by rebuilding
scheme-netloc-path, and skip the link when it equals the base URL. -/
def anchor_link (base_domain self_domain url href0 : Str) : Option Str :=
  if pyStrip href0 = [] then none
  else if is_same_domain base_domain self_domain (pyUrljoin url (pyStrip href0)) then
    if clean_full (pyUrljoin url (pyStrip href0)) ≠ url then
      some (clean_full (pyUrljoin url (pyStrip href0)))
    else none
  else none

/-- `SmartWebsiteAnalyzer.extract_links_from_page` (Url_finder.py lines
68-99), applied to the parsed document: the href attributes of the `a`/`link`
tags and the meta-refresh target (the group matched by `url=(.+)`), when one
exists.  The meta-refresh branch (lines 87-94) resolves the target and adds it
after the same-domain check alone: it is neither fragment/query-stripped nor
compared against the base URL. -/
def extract_links_from_page (base_domain self_domain url : Str)
    (hrefs : List Str) (meta_refresh : Option Str) : List Str :=
  let links := hrefs.filterMap (anchor_link base_domain self_domain url)
  match meta_refresh with
  | none => links
  | some target =>
    if is_same_domain base_domain self_domain (pyUrljoin url target) then
      links ++ [pyUrljoin url target]
    else links

/-- The three values `classify_url` returns. -/
inductive UrlClass where
  | subdomain
  | subdirectory
  | page
deriving DecidableEq, Repr

/-- Return value of `classify_url` together with the elements it adds to
`found_subdomains`, `found_subdirectories` and `found_pages`. -/
structure ClassifyResult where
  cls : UrlClass
  found_subdomains : List Str
  found_subdirectories : List Str
  found_pages : List Str
deriving DecidableEq, Repr

/-- The extension list of Url_finder.py line 175 (also url_finder3.py line 116). -/
def page_extensions : List Str :=
  List.map String.toList [".html", ".htm", ".php", ".asp", ".jsp", ".py"]

/-- The extension list of url_finder2.py line 179. -/
def page_extensions2 : List Str :=
  List.map String.toList [".html", ".htm", ".php", ".asp", ".jsp", ".py", ".pdf", ".doc"]

/-- `SmartWebsiteAnalyzer.classify_url` (Url_finder.py lines 159-187 and
url_finder2.py lines 163-191, which differ only in the extension list). -/
def classify_url_with (exts : List Str) (self_domain base_domain url : Str) :
    ClassifyResult :=
  let parsed := pyUrlparse url
  let domain := parsed.netloc
  let path := rstripChar '/' parsed.path
  if domain ≠ self_domain ∧ containsL base_domain domain = true then
    ⟨.subdomain, [domain], [], []⟩
  else if path ≠ [] then
    let path_parts := (splitOnChar '/' path).filter (fun part => !part.isEmpty)
    if path_parts ≠ [] then
      if exts.any (fun ext => endsWithL (pyLower path) ext) then
        ⟨.page, [],
         if 1 < path_parts.length then [joinWith '/' path_parts.dropLast] else [],
         [url]⟩
      else
        ⟨.subdirectory, [], [lstripChar '/' path], []⟩
    else ⟨.page, [], [], []⟩
  else ⟨.page, [], [], []⟩

/-- `classify_url` as in Url_finder.py (six extensions, no `.pdf`/`.doc`). -/
def classify_url : Str → Str → Str → ClassifyResult :=
  classify_url_with page_extensions

/-- `classify_url` as in url_finder2.py (eight extensions). -/
def classify_url2 : Str → Str → Str → ClassifyResult :=
  classify_url_with page_extensions2

/-- Python `set.add`: append the element unless it is already present. -/
def set_insert (x : Str) (l : List Str) : List Str :=
  if memB x l then l else l ++ [x]

/-- Python `set.update`: fold `set_insert` over the added elements. -/
def set_union (l : List Str) (xs : List Str) : List Str :=
  xs.foldl (fun acc x => set_insert x acc) l

/-- The sample loop of `initial_scan` (Url_finder.py lines 137-146): for each
sample link, a successful fetch contributes the links of its page that are not
yet in `initial_urls_found` ; the triple returned is
`(total_additional_links, successful_samples, initial_urls_found)`. -/
def scan_samples (web : Str → Option (List Str)) :
    List Str → List Str → Nat × Nat × List Str
  | [], found => (0, 0, found)
  | link :: rest, found =>
    match web link with
    | none => scan_samples web rest found
    | some sample_links_found =>
      let new_links := sample_links_found.filter (fun l => !memB l found)
      let r := scan_samples web rest (set_union found new_links)
      (new_links.length + r.1, r.2.1 + 1, r.2.2)

/-- `SmartWebsiteAnalyzer.initial_scan` (Url_finder.py lines 110-157),
returning `none` when the main page is unreachable, otherwise the computed
`estimated_total` together with the final `initial_urls_found`.  The float
arithmetic of lines 150-153 is modelled as binary64:
`avg = total / successful` is a correctly rounded float division,
`avg * remaining_pages` converts the int to float and rounds the product
once, and `int(...)` truncates the non-negative result toward zero. -/
def initial_scan (web : Str → Option (List Str)) (url : Str) :
    Option (Nat × List Str) :=
  match web url with
  | none => none
  | some main_page_links =>
    let found0 := set_union (set_insert url []) main_page_links
    let sample_size := min 5 main_page_links.length
    let r := scan_samples web (main_page_links.take sample_size) found0
    if 0 < r.2.1 then
      some (r.2.2.length +
        fpTrunc (fpMul (fpDivNat r.1 r.2.1)
          (fpOfNat (main_page_links.length - sample_size))), r.2.2)
    else
      some (r.2.2.length, r.2.2)

end UrlFinder

namespace UrlFinder2

/-- `SmartWebsiteAnalyzer.initial_scan_for_count` (url_finder2.py lines
110-161): as `UrlFinder.initial_scan` but the sample cap is 15, the set
starts as `update(main_links)` then `add(url)`, and line 156 multiplies the
projection by the float literal `0.7` — the binary64 value nearest 7/10 —
with the left-associated products each rounded once before truncation. -/
def initial_scan_for_count (web : Str → Option (List Str)) (url : Str) :
    Option (Nat × List Str) :=
  match web url with
  | none => none
  | some main_links =>
    let found0 := UrlFinder.set_insert url (UrlFinder.set_union [] main_links)
    let sample_size := min 15 main_links.length
    let r := UrlFinder.scan_samples web (main_links.take sample_size) found0
    if 0 < r.2.1 then
      some (r.2.2.length +
        fpTrunc (fpMul (fpMul (fpDivNat r.1 r.2.1)
          (fpOfNat (main_links.length - sample_size))) (fpDivNat 7 10)), r.2.2)
    else
      some (r.2.2.length, r.2.2)

end UrlFinder2

/-- Deduplication keeping first occurrences (Python set construction of
`next_level`). -/
def dedupKeepFirst : List Str → List Str
  | [] => []
  | x :: xs => x :: (dedupKeepFirst xs).filter (fun y => !(y == x))

namespace UrlScraper

/-- `AdvancedWebsiteAnalyzer.is_valid_url` (url_scraper.py lines 46-52). -/
def is_valid_url (url : Str) : Bool :=
  !(pyUrlparse url).netloc.isEmpty && !(pyUrlparse url).scheme.isEmpty

/-- The `skip_extensions` list of url_scraper.py lines 62-63. -/
def skip_extensions : List Str :=
  List.map String.toList
    [".pdf", ".jpg", ".jpeg", ".png", ".gif", ".css", ".js",
     ".xml", ".zip", ".tar", ".gz", ".mp4", ".mp3", ".avi"]

/-- `AdvancedWebsiteAnalyzer.should_crawl_url` (url_scraper.py lines 54-71). -/
def should_crawl_url (base_domain : Str) (url : Str) : Bool :=
  if !is_valid_url url then false
  else if skip_extensions.any (fun ext => endsWithL (pyLower url) ext) then false
  else if !containsL base_domain (pyUrlparse url).netloc then false
  else true

/-- `AdvancedWebsiteAnalyzer.crawl_website` (url_scraper.py lines 73-107),
modelled sequentially (the thread pool only parallelises the fetches; the
level structure and the membership filters are as in the source).  `web` maps
a URL to the link list `crawl_single_page` returns for it (`[]` on any
non-200 response or exception).  The fuel argument is `max_depth - depth`;
the value returned is the log of fetch attempts. -/
def crawl_website_levels (web : Str → List Str) (base_domain : Str)
    (max_pages : Nat) : Nat → List Str → List Str → List Str
  | 0, _, _ => []
  | fuel + 1, current_level, visited =>
    if current_level.isEmpty || max_pages ≤ visited.length then []
    else
      let targets := current_level.filter (fun u => !memB u visited)
      let visited1 := visited ++ targets
      let next_level := dedupKeepFirst ((targets.map web).flatten.filter
        (fun u => !memB u visited1 && should_crawl_url base_domain u))
      targets ++ crawl_website_levels web base_domain max_pages fuel next_level visited1

end UrlScraper

/-- Seed URL used by the concrete crawl scenarios below. -/
def exUrlSeed : Str := "https://s".toList

/-- A page URL lexicographically below `exUrlB`. -/
def exUrlA : Str := "https://s/a".toList

/-- A page URL lexicographically above `exUrlA`. -/
def exUrlB : Str := "https://s/b".toList

/-- A one-page site: the seed links to `exUrlA` and `exUrlB`, nothing else
resolves. -/
def exWebLatest : Str → Option (List Str) :=
  fun u => if u = exUrlSeed then some [exUrlA, exUrlB] else none

/-- Root URL of the level-crawl scenario. -/
def exRoot : Str := "https://example.com".toList

/-- A site whose root page links to three same-domain pages. -/
def exWebLevels : Str → List Str :=
  fun u =>
    if u = exRoot then
      ["https://example.com/a".toList, "https://example.com/b".toList,
       "https://example.com/c".toList]
    else []

/-- A site for the estimation scenario: the main page has two links, the
first sample page yields one new link, the second sample fails. -/
def exWebEstimate : Str → Option (List Str) :=
  fun u =>
    if u = "https://e.com".toList then
      some ["https://e.com/a".toList, "https://e.com/b".toList]
    else if u = "https://e.com/a".toList then some ["https://e.com/c".toList]
    else none

/-- Seed URL of the float-divergence scenario for Url_finder.py. -/
def exFloatUrl : Str := ['u']

/-- 32 distinct first-level links, so the sample size is 5 and 27 pages
remain. -/
def exFloatLinks : List Str :=
  (List.range 32).map (fun i => ['l', Char.ofNat (65 + i)])

/-- 13 distinct links that are new with respect to the initial URL set. -/
def exFloatNew : List Str :=
  (List.range 13).map (fun i => ['n', Char.ofNat (65 + i)])

/-- A site where 3 of the 5 sampled pages succeed, contributing 13 new links
in total: the average new links per successful sample is 13/3. -/
def exWebFloat : Str → Option (List Str) :=
  fun u =>
    if u = exFloatUrl then some exFloatLinks
    else if u = ['l', 'A'] then some (exFloatNew.take 5)
    else if u = ['l', 'B'] then some ((exFloatNew.drop 5).take 4)
    else if u = ['l', 'C'] then some ((exFloatNew.drop 9).take 4)
    else none

/-- Seed URL of the float-divergence scenario for url_finder2.py. -/
def exFloatUrl2 : Str := ['v']

/-- 105 distinct first-level links, so the sample size is 15 and 90 pages
remain. -/
def exFloatLinks2 : List Str :=
  (List.range 105).map (fun i => ['m', Char.ofNat (65 + i / 10), Char.ofNat (65 + i % 10)])

/-- A site where exactly one sampled page succeeds, contributing one new
link: the average new links per successful sample is exactly 1. -/
def exWebFloat2 : Str → Option (List Str) :=
  fun u =>
    if u = exFloatUrl2 then some exFloatLinks2
    else if u = ['m', 'A', 'A'] then some [['n', '0']]
    else none

theorem memB_iff_mem (x : Str) (l : List Str) : memB x l = true ↔ x ∈ l := by
  simp [memB]

theorem leadsL_iff (a : Str) : ∀ b : Str, leadsL a b = true ↔ ∃ t, b = a ++ t := by
  induction a with
  | nil => intro b; simp [leadsL]
  | cons x xs ih =>
    intro b
    cases b with
    | nil => simp [leadsL]
    | cons y ys =>
      by_cases hxy : x = y
      · subst hxy
        simp [leadsL, ih ys]
      · rw [leadsL, if_neg hxy]
        simp only [Bool.false_eq_true, false_iff, not_exists]
        intro t h
        rw [List.cons_append] at h
        exact hxy (by injection h with h1 _; exact h1.symm)

theorem leadsL_refl (l : Str) : leadsL l l = true := by
  induction l with
  | nil => rfl
  | cons x xs ih => simp [leadsL, ih]

theorem endsWithL_iff (h s : Str) : endsWithL h s = true ↔ ∃ pre, h = pre ++ s := by
  rw [endsWithL, leadsL_iff]
  constructor
  · rintro ⟨t, ht⟩
    refine ⟨t.reverse, ?_⟩
    have := congrArg List.reverse ht
    simpa using this
  · rintro ⟨pre, hpre⟩
    exact ⟨pre.reverse, by simp [hpre]⟩

theorem containsL_self (l : Str) : containsL l l = true := by
  cases l with
  | nil => rfl
  | cons c r => simp [containsL, leadsL_refl]

theorem containsL_append_right (n h : Str) (hn : containsL n h = true) :
    ∀ pre : Str, containsL n (pre ++ h) = true := by
  intro pre
  induction pre with
  | nil => simpa using hn
  | cons p ps ih => simp [containsL, ih]

theorem containsL_of_suffix (n h : Str) (hs : endsWithL h n = true) :
    containsL n h = true := by
  rcases (endsWithL_iff h n).mp hs with ⟨pre, hpre⟩
  subst hpre
  exact containsL_append_right n n (containsL_self n) pre

theorem ltL_asymm : ∀ a b : Str, ltL a b = true → ltL b a = false := by
  intro a
  induction a with
  | nil =>
    intro b h
    cases b with
    | nil => simp [ltL] at h
    | cons y ys => simp [ltL]
  | cons x xs ih =>
    intro b h
    cases b with
    | nil => simp [ltL] at h
    | cons y ys =>
      simp only [ltL] at h ⊢
      by_cases h1 : x < y
      · rw [if_neg (asymm h1), if_pos h1]
      · rw [if_neg h1] at h
        by_cases h2 : y < x
        · rw [if_pos h2] at h
          simp at h
        · rw [if_neg h2] at h
          rw [if_neg h2, if_neg h1]
          exact ih ys h

theorem ltL_trans : ∀ a b c : Str, ltL a b = true → ltL b c = true → ltL a c = true := by
  intro a
  induction a with
  | nil =>
    intro b c hab hbc
    cases c with
    | nil =>
      cases b with
      | nil => simp [ltL] at hab
      | cons y ys => simp [ltL] at hbc
    | cons z zs => simp [ltL]
  | cons x xs ih =>
    intro b c hab hbc
    cases b with
    | nil => simp [ltL] at hab
    | cons y ys =>
      cases c with
      | nil => simp [ltL] at hbc
      | cons z zs =>
        simp only [ltL] at hab hbc ⊢
        by_cases hxy : x < y
        · by_cases hyz : y < z
          · rw [if_pos (lt_trans hxy hyz)]
          · rw [if_neg hyz] at hbc
            by_cases hzy : z < y
            · rw [if_pos hzy] at hbc
              simp at hbc
            · have heq : y = z := le_antisymm (not_lt.mp hzy) (not_lt.mp hyz)
              subst heq
              rw [if_pos hxy]
        · rw [if_neg hxy] at hab
          by_cases hyx : y < x
          · rw [if_pos hyx] at hab
            simp at hab
          · have heq : x = y := le_antisymm (not_lt.mp hyx) (not_lt.mp hxy)
            subst heq
            rw [if_neg hxy] at hab
            by_cases hxz : x < z
            · rw [if_pos hxz]
            · rw [if_neg hxz] at hbc ⊢
              by_cases hzx : z < x
              · rw [if_pos hzx] at hbc
                simp at hbc
              · rw [if_neg hzx] at hbc ⊢
                exact ih ys zs hab hbc

theorem mem_insertAsc (z x : Str) : ∀ l : List Str, z ∈ insertAsc x l ↔ z = x ∨ z ∈ l := by
  intro l
  induction l with
  | nil => simp [insertAsc]
  | cons y ys ih =>
    rw [insertAsc]
    by_cases h : ltL x y = true
    · rw [if_pos h]
      simp [List.mem_cons]
    · rw [if_neg h]
      simp only [List.mem_cons, ih]
      tauto

theorem mem_sortAsc (z : Str) : ∀ l : List Str, z ∈ sortAsc l ↔ z ∈ l := by
  intro l
  induction l with
  | nil => simp [sortAsc]
  | cons x xs ih => simp [sortAsc, mem_insertAsc, ih]

theorem mem_sortDesc (z : Str) (l : List Str) : z ∈ sortDesc l ↔ z ∈ l := by
  simp [sortDesc, mem_sortAsc]

theorem pairwise_insertAsc (x : Str) :
    ∀ l : List Str, l.Pairwise (fun a b => ltL b a = false) →
      (insertAsc x l).Pairwise (fun a b => ltL b a = false) := by
  intro l
  induction l with
  | nil =>
    intro _
    simp [insertAsc]
  | cons y ys ih =>
    intro hl
    rw [List.pairwise_cons] at hl
    rw [insertAsc]
    by_cases hxy : ltL x y = true
    · rw [if_pos hxy, List.pairwise_cons]
      refine ⟨?_, List.pairwise_cons.mpr hl⟩
      intro z hz
      rcases List.mem_cons.mp hz with rfl | hz'
      · exact ltL_asymm x z hxy
      · rcases Bool.eq_false_or_eq_true (ltL z x) with ht | hf
        · have hzy : ltL z y = true := ltL_trans z x y ht hxy
          rw [hl.1 z hz'] at hzy
          simp at hzy
        · exact hf
    · rw [if_neg hxy, List.pairwise_cons]
      have hxy' : ltL x y = false := by
        simpa using hxy
      refine ⟨?_, ih hl.2⟩
      intro z hz
      rcases (mem_insertAsc z x ys).mp hz with rfl | hz'
      · exact hxy'
      · exact hl.1 z hz'

theorem pairwise_sortAsc : ∀ l : List Str,
    (sortAsc l).Pairwise (fun a b => ltL b a = false) := by
  intro l
  induction l with
  | nil => simp [sortAsc]
  | cons x xs ih => exact pairwise_insertAsc x (sortAsc xs) ih

theorem pairwise_sortDesc (l : List Str) :
    (sortDesc l).Pairwise (fun a b => ltL a b = false) := by
  rw [sortDesc, List.pairwise_reverse]
  exact pairwise_sortAsc l

theorem appendLeftAll_eq : ∀ (l q : List Str), appendLeftAll l q = l.reverse ++ q := by
  intro l
  induction l with
  | nil => intro q; simp [appendLeftAll]
  | cons x xs ih => intro q; simp [appendLeftAll, ih]

theorem appendLeftAll_sortDesc (l q : List Str) :
    appendLeftAll (sortDesc l) q = sortAsc l ++ q := by
  rw [appendLeftAll_eq, sortDesc, List.reverse_reverse]

theorem insertAsc_ne_nil (x : Str) (l : List Str) : insertAsc x l ≠ [] := by
  cases l with
  | nil => simp [insertAsc]
  | cons y ys =>
    rw [insertAsc]
    split
    · simp
    · simp

theorem sortDesc_eq_nil_iff (l : List Str) : sortDesc l = [] ↔ l = [] := by
  cases l with
  | nil => simp [sortDesc, sortAsc]
  | cons x xs =>
    simp only [sortDesc, sortAsc, List.reverse_eq_nil_iff]
    constructor
    · intro h
      exact absurd h (insertAsc_ne_nil x (sortAsc xs))
    · intro h
      exact absurd h (List.cons_ne_nil x xs)

theorem fpDivNat_zero_left (b : Nat) : fpDivNat 0 b = ⟨0, 0⟩ := by
  simp [fpDivNat]

theorem fpMul_zero_left (g : Binary64) : fpMul ⟨0, 0⟩ g = ⟨0, 0⟩ := by
  simp [fpMul, fpNormalize]

theorem fpTrunc_zero : fpTrunc ⟨0, 0⟩ = 0 := by
  simp [fpTrunc]

namespace UrlFinder

theorem crawl_step_inv (web : Str → Option (List Str)) (maxP : Nat) (s s1 : CrawlState)
    (h : crawl_step web maxP s = some s1) :
    (∃ u rest, s.queue = u :: rest ∧ s.crawl_count < maxP ∧ memB u s.visited = true ∧
       s1 = ⟨rest, s.visited, s.crawl_count, s.fetch_log⟩) ∨
    (∃ u rest, s.queue = u :: rest ∧ s.crawl_count < maxP ∧ memB u s.visited = false ∧
       web u = none ∧
       s1 = ⟨rest, u :: s.visited, s.crawl_count + 1, s.fetch_log ++ [u]⟩) ∨
    (∃ u rest links, s.queue = u :: rest ∧ s.crawl_count < maxP ∧
       memB u s.visited = false ∧ web u = some links ∧
       s1 = ⟨appendLeftAll (sortDesc (links.filter
               (fun l => !memB l (u :: s.visited) && !memB l rest))) rest,
             u :: s.visited, s.crawl_count + 1, s.fetch_log ++ [u]⟩) := by
  obtain ⟨q, v, c, log⟩ := s
  cases q with
  | nil => simp [crawl_step] at h
  | cons u rest =>
    by_cases hb : maxP ≤ c
    · simp [crawl_step, hb] at h
    · cases hv : memB u v with
      | true =>
        left
        refine ⟨u, rest, rfl, not_le.mp hb, hv, ?_⟩
        simp only [crawl_step, if_neg hb, hv, if_pos] at h
        exact (Option.some.inj h).symm
      | false =>
        cases hw : web u with
        | none =>
          right; left
          refine ⟨u, rest, rfl, not_le.mp hb, hv, hw, ?_⟩
          simp only [crawl_step, if_neg hb, hv, Bool.false_eq_true, if_false, hw] at h
          exact (Option.some.inj h).symm
        | some links =>
          right; right
          refine ⟨u, rest, links, rfl, not_le.mp hb, hv, hw, ?_⟩
          simp only [crawl_step, if_neg hb, hv, Bool.false_eq_true, if_false, hw] at h
          exact (Option.some.inj h).symm

theorem crawl_loop_preserves (web : Str → Option (List Str)) (maxP : Nat)
    (P : CrawlState → Prop)
    (hstep : ∀ s s1, crawl_step web maxP s = some s1 → P s → P s1) :
    ∀ fuel s, P s → P (crawl_loop web maxP fuel s) := by
  intro fuel
  induction fuel with
  | zero => intro s hs; exact hs
  | succ n ih =>
    intro s hs
    rw [crawl_loop]
    cases h : crawl_step web maxP s with
    | none => exact hs
    | some s1 => exact ih s1 (hstep s s1 h hs)

theorem crawl_step_none_of_budget (web : Str → Option (List Str)) (maxP : Nat)
    (s : CrawlState) (h : maxP ≤ s.crawl_count) : crawl_step web maxP s = none := by
  obtain ⟨q, v, c, log⟩ := s
  cases q with
  | nil => rfl
  | cons u rest => simp [crawl_step, h]

theorem crawl_loop_of_budget (web : Str → Option (List Str)) (maxP fuel : Nat)
    (s : CrawlState) (h : maxP ≤ s.crawl_count) : crawl_loop web maxP fuel s = s := by
  cases fuel with
  | zero => rfl
  | succ n => rw [crawl_loop, crawl_step_none_of_budget web maxP s h]

theorem crawl_loop_budget (web : Str → Option (List Str)) (maxP fuel : Nat)
    (s : CrawlState) (h1 : s.crawl_count ≤ maxP)
    (h2 : s.fetch_log.length = s.crawl_count) :
    (crawl_loop web maxP fuel s).crawl_count ≤ maxP ∧
      (crawl_loop web maxP fuel s).fetch_log.length =
        (crawl_loop web maxP fuel s).crawl_count := by
  refine crawl_loop_preserves web maxP
    (fun t => t.crawl_count ≤ maxP ∧ t.fetch_log.length = t.crawl_count) ?_ fuel s ⟨h1, h2⟩
  intro t t1 hstep ht
  rcases crawl_step_inv web maxP t t1 hstep with
    ⟨u, rest, hq, hc, hv, rfl⟩ | ⟨u, rest, hq, hc, hv, hw, rfl⟩ |
    ⟨u, rest, links, hq, hc, hv, hw, rfl⟩
  · exact ht
  · exact ⟨hc, by simp [ht.2]⟩
  · exact ⟨hc, by simp [ht.2]⟩

theorem crawl_loop_nodup (web : Str → Option (List Str)) (maxP fuel : Nat)
    (s : CrawlState) (h1 : s.fetch_log.Nodup)
    (h2 : ∀ x ∈ s.fetch_log, x ∈ s.visited) :
    (crawl_loop web maxP fuel s).fetch_log.Nodup ∧
      ∀ x ∈ (crawl_loop web maxP fuel s).fetch_log,
        x ∈ (crawl_loop web maxP fuel s).visited := by
  refine crawl_loop_preserves web maxP
    (fun t => t.fetch_log.Nodup ∧ ∀ x ∈ t.fetch_log, x ∈ t.visited) ?_ fuel s ⟨h1, h2⟩
  intro t t1 hstep ht
  rcases crawl_step_inv web maxP t t1 hstep with
    ⟨u, rest, hq, hc, hv, rfl⟩ | ⟨u, rest, hq, hc, hv, hw, rfl⟩ |
    ⟨u, rest, links, hq, hc, hv, hw, rfl⟩
  · exact ht
  · have hu : u ∉ t.visited := by
      intro hmem
      rw [(memB_iff_mem u t.visited).mpr hmem] at hv
      simp at hv
    have hulog : u ∉ t.fetch_log := fun hl => hu (ht.2 u hl)
    refine ⟨by simp [List.nodup_append, ht.1, hulog], ?_⟩
    intro x hx
    rcases List.mem_append.mp hx with hx | hx
    · exact List.mem_cons_of_mem _ (ht.2 x hx)
    · simp only [List.mem_singleton] at hx
      subst hx
      exact List.mem_cons_self _ _
  · have hu : u ∉ t.visited := by
      intro hmem
      rw [(memB_iff_mem u t.visited).mpr hmem] at hv
      simp at hv
    have hulog : u ∉ t.fetch_log := fun hl => hu (ht.2 u hl)
    refine ⟨by simp [List.nodup_append, ht.1, hulog], ?_⟩
    intro x hx
    rcases List.mem_append.mp hx with hx | hx
    · exact List.mem_cons_of_mem _ (ht.2 x hx)
    · simp only [List.mem_singleton] at hx
      subst hx
      exact List.mem_cons_self _ _

theorem crawl_loop_queue (web : Str → Option (List Str)) (maxP : Nat)
    (Q : Str → Prop)
    (hweb : ∀ u links, web u = some links → ∀ l ∈ links, Q l)
    (fuel : Nat) (s : CrawlState) (hs : ∀ x ∈ s.queue, Q x) :
    ∀ x ∈ (crawl_loop web maxP fuel s).queue, Q x := by
  refine crawl_loop_preserves web maxP (fun t => ∀ x ∈ t.queue, Q x) ?_ fuel s hs
  intro t t1 hstep ht
  rcases crawl_step_inv web maxP t t1 hstep with
    ⟨u, rest, hq, hc, hv, rfl⟩ | ⟨u, rest, hq, hc, hv, hw, rfl⟩ |
    ⟨u, rest, links, hq, hc, hv, hw, rfl⟩
  · intro x hx
    exact ht x (by rw [hq]; exact List.mem_cons_of_mem _ hx)
  · intro x hx
    exact ht x (by rw [hq]; exact List.mem_cons_of_mem _ hx)
  · intro x hx
    simp only [appendLeftAll_eq] at hx
    rcases List.mem_append.mp hx with hx | hx
    · rw [List.mem_reverse, mem_sortDesc] at hx
      exact hweb u links hw x (List.mem_filter.mp hx).1
    · exact ht x (by rw [hq]; exact List.mem_cons_of_mem _ hx)

theorem crawl_loop_one_fetch (web : Str → Option (List Str)) (fuel : Nat)
    (u : Str) (q0 : List Str) :
    (crawl_loop web 1 (fuel + 1) ⟨u :: q0, [], 0, []⟩).fetch_log = [u] := by
  rw [crawl_loop]
  cases hw : web u with
  | none =>
    have hstep : crawl_step web 1 ⟨u :: q0, [], 0, []⟩ = some ⟨q0, [u], 1, [u]⟩ := by
      simp [crawl_step, memB, hw]
    rw [hstep]
    show (crawl_loop web 1 fuel ⟨q0, [u], 1, [u]⟩).fetch_log = [u]
    rw [crawl_loop_of_budget web 1 fuel ⟨q0, [u], 1, [u]⟩ (le_refl 1)]
  | some links =>
    have hstep : crawl_step web 1 ⟨u :: q0, [], 0, []⟩ =
        some ⟨appendLeftAll (sortDesc (links.filter
                (fun l => !memB l [u] && !memB l q0))) q0, [u], 1, [u]⟩ := by
      simp [crawl_step, memB, hw]
    rw [hstep]
    show (crawl_loop web 1 fuel ⟨appendLeftAll (sortDesc (links.filter
      (fun l => !memB l [u] && !memB l q0))) q0, [u], 1, [u]⟩).fetch_log = [u]
    rw [crawl_loop_of_budget web 1 fuel _ (le_refl 1)]

theorem scan_samples_succ_le (web : Str → Option (List Str)) :
    ∀ (samples found : List Str),
      (scan_samples web samples found).2.1 ≤ samples.length := by
  intro samples
  induction samples with
  | nil =>
    intro found
    simp [scan_samples]
  | cons l rest ih =>
    intro found
    cases hw : web l with
    | none =>
      simp only [scan_samples, hw]
      exact le_trans (ih found) (by simp)
    | some links =>
      simp only [scan_samples, hw, List.length_cons]
      exact Nat.succ_le_succ (ih _)

end UrlFinder

theorem dedupKeepFirst_nodup : ∀ l : List Str, (dedupKeepFirst l).Nodup := by
  intro l
  induction l with
  | nil => simp [dedupKeepFirst]
  | cons x xs ih =>
    rw [dedupKeepFirst, List.nodup_cons]
    refine ⟨?_, ih.filter _⟩
    intro hx
    have := (List.mem_filter.mp hx).2
    simp at this

theorem dropWhile_first_not (p : Char → Bool) :
    ∀ (l : Str) (y : Char) (t : Str), l.dropWhile p = y :: t → p y = false := by
  intro l
  induction l with
  | nil =>
    intro y t h
    simp [List.dropWhile] at h
  | cons x xs ih =>
    intro y t h
    by_cases hx : p x = true
    · rw [List.dropWhile_cons_of_pos hx] at h
      exact ih y t h
    · rw [List.dropWhile_cons_of_neg hx] at h
      injection h with h1 _
      subst h1
      simpa using hx

theorem rstripChar_exists_ne (c : Char) (l : Str) (h : rstripChar c l ≠ []) :
    ∃ x ∈ rstripChar c l, ¬ x = c := by
  rw [rstripChar] at h ⊢
  cases hd : l.reverse.dropWhile (fun x => x = c) with
  | nil => rw [hd] at h; simp at h
  | cons y t =>
    refine ⟨y, ?_, ?_⟩
    · simp
    · have := dropWhile_first_not (fun x => decide (x = c)) l.reverse y t hd
      simpa using this

theorem splitOnChar_ne_nil (c : Char) (l : Str) : splitOnChar c l ≠ [] := by
  cases l with
  | nil => simp [splitOnChar]
  | cons x xs =>
    simp only [splitOnChar]
    by_cases hx : x = c
    · simp [hx]
    · rw [if_neg hx]
      cases hr : splitOnChar c xs with
      | nil => simp
      | cons h t => simp

theorem splitOnChar_filter_ne_nil (c : Char) :
    ∀ l : Str, (∃ x ∈ l, ¬ x = c) →
      (splitOnChar c l).filter (fun part => !part.isEmpty) ≠ [] := by
  intro l
  induction l with
  | nil =>
    rintro ⟨x, hx, _⟩
    simp at hx
  | cons y ys ih =>
    rintro ⟨x, hx, hxc⟩
    simp only [splitOnChar]
    by_cases hy : y = c
    · rw [if_pos hy]
      have hxys : x ∈ ys := by
        rcases List.mem_cons.mp hx with rfl | h
        · exact absurd hy hxc
        · exact h
      have hr := ih ⟨x, hxys, hxc⟩
      simpa using hr
    · rw [if_neg hy]
      cases hr : splitOnChar c ys with
      | nil => exact absurd hr (splitOnChar_ne_nil c ys)
      | cons h t => simp

namespace UrlFinder

theorem classify_url_with_spec (exts : List Str) (sd bd url : Str)
    (hdom : (pyUrlparse url).netloc = sd)
    (hpath : rstripChar '/' (pyUrlparse url).path ≠ []) :
    classify_url_with exts sd bd url =
      if exts.any (fun ext => endsWithL (pyLower (rstripChar '/' (pyUrlparse url).path)) ext) then
        ⟨.page, [],
         if 1 < ((splitOnChar '/' (rstripChar '/' (pyUrlparse url).path)).filter
             (fun part => !part.isEmpty)).length then
           [joinWith '/' ((splitOnChar '/' (rstripChar '/' (pyUrlparse url).path)).filter
             (fun part => !part.isEmpty)).dropLast]
         else [], [url]⟩
      else ⟨.subdirectory, [], [lstripChar '/' (rstripChar '/' (pyUrlparse url).path)], []⟩ := by
  have hparts : (splitOnChar '/' (rstripChar '/' (pyUrlparse url).path)).filter
      (fun part => !part.isEmpty) ≠ [] := by
    rcases rstripChar_exists_ne '/' (pyUrlparse url).path hpath with ⟨x, hx, hxc⟩
    exact splitOnChar_filter_ne_nil '/' _ ⟨x, hx, hxc⟩
  simp only [classify_url_with]
  rw [if_neg (fun hh => hh.1 hdom), if_pos hpath, if_pos hparts]

theorem anchor_link_ne_base (bd sd url h0 l : Str)
    (h : anchor_link bd sd url h0 = some l) : l ≠ url := by
  unfold anchor_link at h
  by_cases h1 : pyStrip h0 = []
  · rw [if_pos h1] at h
    exact absurd h (by simp)
  · rw [if_neg h1] at h
    by_cases h2 : is_same_domain bd sd (pyUrljoin url (pyStrip h0)) = true
    · rw [if_pos h2] at h
      by_cases h3 : clean_full (pyUrljoin url (pyStrip h0)) ≠ url
      · rw [if_pos h3] at h
        injection h with h4
        exact h4 ▸ h3
      · rw [if_neg h3] at h
        exact absurd h (by simp)
    · rw [if_neg h2] at h
      exact absurd h (by simp)

end UrlFinder

theorem crawl_levels_nodup (web : Str → List Str) (bd : Str) (maxP : Nat) :
    ∀ (fuel : Nat) (current visited : List Str), current.Nodup →
      (UrlScraper.crawl_website_levels web bd maxP fuel current visited).Nodup ∧
        ∀ x ∈ UrlScraper.crawl_website_levels web bd maxP fuel current visited,
          x ∉ visited := by
  intro fuel
  induction fuel with
  | zero =>
    intro current visited hcur
    simp [UrlScraper.crawl_website_levels]
  | succ n ih =>
    intro current visited hcur
    simp only [UrlScraper.crawl_website_levels]
    split
    · simp
    · constructor
      · rw [List.nodup_append]
        refine ⟨hcur.filter _, (ih _ _ (dedupKeepFirst_nodup _)).1, ?_⟩
        intro x hxtg hxrec
        exact (ih _ _ (dedupKeepFirst_nodup _)).2 x hxrec (List.mem_append.mpr (Or.inr hxtg))
      · intro x hx
        rcases List.mem_append.mp hx with hx | hx
        · have hmb := (List.mem_filter.mp hx).2
          intro hxv
          rw [(memB_iff_mem x visited).mpr hxv] at hmb
          simp at hmb
        · intro hxv
          exact (ih _ _ (dedupKeepFirst_nodup _)).2 x hx (List.mem_append.mpr (Or.inl hxv))

/-- C1: the claimed characterisation of the in-scope test is false on the
code: `is_same_domain` is a substring test, so the host `badexample.com`,
which neither equals the seed host `example.com` nor ends with
`.example.com`, is nevertheless accepted as in-scope. -/
theorem scope_iff_dot_suffix_counterexample :
    UrlFinder.is_same_domain_host "example.com".toList "example.com".toList
      "badexample.com".toList = true ∧
    "badexample.com".toList ≠ "example.com".toList ∧
    endsWithL "badexample.com".toList ('.' :: "example.com".toList) = false := by
  decide

/-- C1 (amended): a URL whose host equals the seed host or ends with the
registrable domain as a dot-suffix always passes `is_same_domain` (the claimed
condition implies the code's test), and every URL in the pending frontier at
any point of `controlled_crawl` satisfies any property that holds of the
initial URLs and of all links the link extractor emits — in particular a link
rejected by the in-scope filter never enters the pending frontier. -/
theorem frontier_scope_substring :
    (∀ bd sd hst : Str, (hst = sd ∨ endsWithL hst ('.' :: bd) = true) →
       UrlFinder.is_same_domain_host bd sd hst = true) ∧
    (∀ (Q : Str → Prop) (web : Str → Option (List Str)) (maxP fuel : Nat)
       (init : List Str),
       (∀ u links, web u = some links → ∀ l ∈ links, Q l) →
       (∀ u ∈ init, Q u) →
       ∀ x ∈ (UrlFinder.controlled_crawl web maxP fuel init).queue, Q x) := by
  constructor
  · rintro bd sd hst (rfl | hsuf)
    · simp [UrlFinder.is_same_domain_host, containsL_self]
    · rcases (endsWithL_iff hst ('.' :: bd)).mp hsuf with ⟨pre, rfl⟩
      have h2 : containsL bd ((pre ++ ['.']) ++ bd) = true :=
        containsL_append_right bd bd (containsL_self bd) (pre ++ ['.'])
      have h3 : containsL bd (pre ++ '.' :: bd) = true := by
        simpa [List.append_assoc] using h2
      simp [UrlFinder.is_same_domain_host, h3]
  · intro Q web maxP fuel init hweb hinit
    simp only [UrlFinder.controlled_crawl]
    exact UrlFinder.crawl_loop_queue web maxP Q hweb fuel ⟨sortDesc init, [], 0, []⟩
      (fun x hx => hinit x ((mem_sortDesc x init).mp hx))

/-- C1 (witness): a subdomain host passes the scope test, and with a web that
yields no links every pending URL of a concrete crawl is the seed. -/
theorem frontier_scope_substring_witness :
    UrlFinder.is_same_domain_host "example.com".toList "example.com".toList
      "docs.example.com".toList = true ∧
    ∀ x ∈ (UrlFinder.controlled_crawl (fun _ => none) 5 3
        ["https://example.com".toList]).queue,
      x = "https://example.com".toList := by
  constructor
  · exact frontier_scope_substring.1 "example.com".toList "example.com".toList
      "docs.example.com".toList (Or.inr (by decide))
  · exact frontier_scope_substring.2 (fun x => x = "https://example.com".toList)
      (fun _ => none) 5 3 ["https://example.com".toList]
      (fun u links h => by simp at h)
      (fun u hu => by simpa using hu)

/-- C2: the budget claim is false for `AdvancedWebsiteAnalyzer.crawl_website`:
the budget is only checked between depth levels, so with `max_pages = 2` the
level crawl of a root page with three links performs 4 fetch attempts. -/
theorem budget_level_crawl_counterexample :
    (UrlScraper.crawl_website_levels exWebLevels "example.com".toList 2 3
       [exRoot] []).length = 4 ∧ ¬ (4 ≤ 2) := by
  decide

/-- C2 (amended): `controlled_crawl` performs at most `max_pages` fetch
attempts for every web, fuel and initial frontier, and with `max_pages = 1`
and a non-empty initial frontier it performs exactly one fetch attempt; the
level-based `crawl_website` checks the budget only between levels and can
exceed it (see the counterexample). -/
theorem budget_controlled_crawl :
    (∀ (web : Str → Option (List Str)) (maxP fuel : Nat) (init : List Str),
       (UrlFinder.controlled_crawl web maxP fuel init).fetch_log.length ≤ maxP) ∧
    (∀ (web : Str → Option (List Str)) (fuel : Nat) (init : List Str),
       init ≠ [] →
       (UrlFinder.controlled_crawl web 1 (fuel + 1) init).fetch_log.length = 1) := by
  constructor
  · intro web maxP fuel init
    have h := UrlFinder.crawl_loop_budget web maxP fuel
      ⟨sortDesc init, [], 0, []⟩ (Nat.zero_le _) rfl
    simp only [UrlFinder.controlled_crawl]
    rw [h.2]
    exact h.1
  · intro web fuel init hne
    cases hsort : sortDesc init with
    | nil => exact absurd ((sortDesc_eq_nil_iff init).mp hsort) hne
    | cons u q0 =>
      simp only [UrlFinder.controlled_crawl, hsort]
      rw [UrlFinder.crawl_loop_one_fetch]
      rfl

/-- C2 (witness): one fetch attempt for a concrete one-element frontier with
budget 1. -/
theorem budget_controlled_crawl_witness :
    (UrlFinder.controlled_crawl (fun _ => none) 1 (2 + 1)
       ["https://x".toList]).fetch_log.length = 1 :=
  budget_controlled_crawl.2 (fun _ => none) 2 ["https://x".toList] (by decide)

/-- C3: no URL is fetched twice in a session: the fetch log of
`controlled_crawl` is duplicate-free, popping an already-visited URL is a
no-op that performs no fetch and leaves the counter and log unchanged, every
fetched URL is in the visited set, and the level crawl of url_scraper.py also
never fetches a URL twice. -/
theorem no_duplicate_fetches :
    (∀ (web : Str → Option (List Str)) (maxP fuel : Nat) (init : List Str),
       (UrlFinder.controlled_crawl web maxP fuel init).fetch_log.Nodup) ∧
    (∀ (web : Str → Option (List Str)) (maxP : Nat) (u : Str)
       (rest v log : List Str) (c : Nat), c < maxP → memB u v = true →
       UrlFinder.crawl_step web maxP ⟨u :: rest, v, c, log⟩ =
         some ⟨rest, v, c, log⟩) ∧
    (∀ (web : Str → Option (List Str)) (maxP fuel : Nat) (init : List Str),
       ∀ x ∈ (UrlFinder.controlled_crawl web maxP fuel init).fetch_log,
         x ∈ (UrlFinder.controlled_crawl web maxP fuel init).visited) ∧
    (∀ (web : Str → List Str) (bd : Str) (maxP fuel : Nat)
       (current visited : List Str), current.Nodup →
       (UrlScraper.crawl_website_levels web bd maxP fuel current visited).Nodup) := by
  refine ⟨?_, ?_, ?_, ?_⟩
  · intro web maxP fuel init
    simp only [UrlFinder.controlled_crawl]
    exact (UrlFinder.crawl_loop_nodup web maxP fuel ⟨sortDesc init, [], 0, []⟩
      List.nodup_nil (by simp)).1
  · intro web maxP u rest v log c hc hv
    simp [UrlFinder.crawl_step, not_le.mpr hc, hv]
  · intro web maxP fuel init
    simp only [UrlFinder.controlled_crawl]
    exact (UrlFinder.crawl_loop_nodup web maxP fuel ⟨sortDesc init, [], 0, []⟩
      List.nodup_nil (by simp)).2
  · intro web bd maxP fuel current visited hcur
    exact (crawl_levels_nodup web bd maxP fuel current visited hcur).1

/-- C3 (witness): the skip branch at a concrete visited URL, and a concrete
duplicate-free level-crawl log. -/
theorem no_duplicate_fetches_witness :
    UrlFinder.crawl_step (fun _ => none) 5
      ⟨["https://a".toList, "https://b".toList], ["https://a".toList], 1,
        ["https://a".toList]⟩ =
      some ⟨["https://b".toList], ["https://a".toList], 1, ["https://a".toList]⟩ ∧
    (UrlScraper.crawl_website_levels (fun _ => []) "e.com".toList 3 2
       ["https://e.com".toList] []).Nodup := by
  constructor
  · exact no_duplicate_fetches.2.1 (fun _ => none) 5 "https://a".toList
      ["https://b".toList] ["https://a".toList] ["https://a".toList] 1
      (by decide) (by decide)
  · exact no_duplicate_fetches.2.2.2 (fun _ => []) "e.com".toList 3 2
      ["https://e.com".toList] [] (by decide)

/-- C4: the latest-first claim is false on the code: after the seed page of a
concrete site is fetched, the pending frontier is `[exUrlA, exUrlB]` with
`exUrlA < exUrlB`, and the URL taken next is `exUrlA`, not the
lexicographically greatest pending URL `exUrlB`. -/
theorem latest_first_counterexample :
    (UrlFinder.controlled_crawl exWebLatest 10 1 [exUrlSeed]).queue =
      [exUrlA, exUrlB] ∧
    ltL exUrlA exUrlB = true ∧
    (UrlFinder.controlled_crawl exWebLatest 10 2 [exUrlSeed]).fetch_log =
      [exUrlSeed, exUrlA] := by
  decide

/-- C4 (amended): the initial frontier is the descending sort of the initial
URL set and is drained from the front; when a fetched page yields fresh links
they are placed at the front of the queue, ahead of every previously pending
URL, in ascending lexicographic order among themselves — so after an
expansion the scheduler next takes the least fresh link, not the greatest
pending URL. -/
theorem queue_insertion_order :
    (∀ (web : Str → Option (List Str)) (maxP : Nat) (u : Str)
       (rest v log : List Str) (c : Nat) (links : List Str),
       c < maxP → memB u v = false → web u = some links →
       UrlFinder.crawl_step web maxP ⟨u :: rest, v, c, log⟩ =
         some ⟨sortAsc (links.filter (fun l => !memB l (u :: v) && !memB l rest)) ++ rest,
               u :: v, c + 1, log ++ [u]⟩) ∧
    (∀ l : List Str, (sortAsc l).Pairwise (fun a b => ltL b a = false)) ∧
    (∀ l : List Str, (sortDesc l).Pairwise (fun a b => ltL a b = false)) ∧
    (∀ (web : Str → Option (List Str)) (maxP fuel : Nat) (init : List Str),
       UrlFinder.controlled_crawl web maxP fuel init =
         UrlFinder.crawl_loop web maxP fuel ⟨sortDesc init, [], 0, []⟩) := by
  refine ⟨?_, pairwise_sortAsc, pairwise_sortDesc, fun _ _ _ _ => rfl⟩
  intro web maxP u rest v log c links hc hv hw
  simp [UrlFinder.crawl_step, not_le.mpr hc, hv, hw, appendLeftAll_sortDesc]

/-- C4 (witness): the fetch step of the concrete scenario, with the two fresh
links prepended in ascending order. -/
theorem queue_insertion_order_witness :
    UrlFinder.crawl_step exWebLatest 10 ⟨[exUrlSeed], [], 0, []⟩ =
      some ⟨sortAsc ([exUrlA, exUrlB].filter
              (fun l => !memB l (exUrlSeed :: []) && !memB l [])) ++ [],
            [exUrlSeed], 1, [exUrlSeed]⟩ :=
  queue_insertion_order.1 exWebLatest 10 exUrlSeed [] [] [] 0 [exUrlA, exUrlB]
    (by decide) (by decide) (by decide)

/-- C5: the claimed eight-extension list is false for the `classify_url` of
Url_finder.py, whose list stops at `.py`: a same-host URL ending in `.pdf` is
classified as a subdirectory, not a page, although `.pdf` is in the claimed
list. -/
theorem classify_pdf_counterexample :
    (UrlFinder.classify_url "example.com".toList "example.com".toList
       "https://example.com/file.pdf".toList).cls = .subdirectory ∧
    endsWithL (pyLower (rstripChar '/'
      (pyUrlparse "https://example.com/file.pdf".toList).path)) ".pdf".toList = true ∧
    (UrlFinder.classify_url2 "example.com".toList "example.com".toList
       "https://example.com/file.pdf".toList).cls = .page := by
  decide

/-- C5 (amended): for a same-host URL with non-empty trimmed path, the
url_finder2.py classifier returns PAGE exactly when the trimmed path ends,
case-insensitively, with one of the eight claimed extensions, while the
Url_finder.py classifier uses only the six extensions up to `.py` (no
`.pdf`/`.doc`); when PAGE, the join of all path segments but the last is
registered as a subdirectory exactly when more than one segment exists, and
otherwise the path with leading slashes removed is registered as the
subdirectory. -/
theorem classify_extension_rules (self_domain base_domain url : Str)
    (hdom : (pyUrlparse url).netloc = self_domain)
    (hpath : rstripChar '/' (pyUrlparse url).path ≠ []) :
    ((UrlFinder.classify_url2 self_domain base_domain url).cls = .page ↔
       UrlFinder.page_extensions2.any
         (fun ext => endsWithL (pyLower (rstripChar '/' (pyUrlparse url).path)) ext) = true) ∧
    ((UrlFinder.classify_url self_domain base_domain url).cls = .page ↔
       UrlFinder.page_extensions.any
         (fun ext => endsWithL (pyLower (rstripChar '/' (pyUrlparse url).path)) ext) = true) ∧
    (∀ exts,
       (UrlFinder.classify_url_with exts self_domain base_domain url).cls = .page →
       (UrlFinder.classify_url_with exts self_domain base_domain url).found_subdirectories =
         if 1 < ((splitOnChar '/' (rstripChar '/' (pyUrlparse url).path)).filter
             (fun part => !part.isEmpty)).length then
           [joinWith '/' ((splitOnChar '/' (rstripChar '/' (pyUrlparse url).path)).filter
             (fun part => !part.isEmpty)).dropLast]
         else []) ∧
    (∀ exts,
       (UrlFinder.classify_url_with exts self_domain base_domain url).cls = .subdirectory →
       (UrlFinder.classify_url_with exts self_domain base_domain url).found_subdirectories =
         [lstripChar '/' (rstripChar '/' (pyUrlparse url).path)]) := by
  refine ⟨?_, ?_, ?_, ?_⟩
  · simp only [UrlFinder.classify_url2]
    rw [UrlFinder.classify_url_with_spec UrlFinder.page_extensions2
      self_domain base_domain url hdom hpath]
    by_cases hc : UrlFinder.page_extensions2.any
        (fun ext => endsWithL (pyLower (rstripChar '/' (pyUrlparse url).path)) ext) = true
    · simp [hc]
    · simp [hc]
  · simp only [UrlFinder.classify_url]
    rw [UrlFinder.classify_url_with_spec UrlFinder.page_extensions
      self_domain base_domain url hdom hpath]
    by_cases hc : UrlFinder.page_extensions.any
        (fun ext => endsWithL (pyLower (rstripChar '/' (pyUrlparse url).path)) ext) = true
    · simp [hc]
    · simp [hc]
  · intro exts hcls
    rw [UrlFinder.classify_url_with_spec exts self_domain base_domain url hdom hpath]
      at hcls ⊢
    by_cases hc : exts.any
        (fun ext => endsWithL (pyLower (rstripChar '/' (pyUrlparse url).path)) ext) = true
    · simp [hc]
    · rw [if_neg hc] at hcls
      simp at hcls
  · intro exts hcls
    rw [UrlFinder.classify_url_with_spec exts self_domain base_domain url hdom hpath]
      at hcls ⊢
    by_cases hc : exts.any
        (fun ext => endsWithL (pyLower (rstripChar '/' (pyUrlparse url).path)) ext) = true
    · rw [if_pos hc] at hcls
      simp at hcls
    · simp [hc]

/-- C5 (witness): a concrete `.html` page under a directory is classified as
a page by both extension lists. -/
theorem classify_extension_rules_witness :
    (UrlFinder.classify_url2 "example.com".toList "example.com".toList
       "https://example.com/docs/intro.html".toList).cls = UrlFinder.UrlClass.page :=
  ((classify_extension_rules "example.com".toList "example.com".toList
      "https://example.com/docs/intro.html".toList (by decide) (by decide)).1).mpr
    (by decide)

set_option maxRecDepth 100000 in
/-- C6: the claimed exact-floor formula is false on the code, which computes
the projection in binary64 floating point: with 32 first-level links (sample
size 5, 27 remaining) and 3 successful samples contributing 13 new links,
Url_finder.py computes `int((13/3)*27) = 116` while the claimed
`floor((13/3)*27) = 117`; with 105 links (sample 15, 90 remaining) and one
successful sample with one new link, url_finder2.py computes
`int(1.0*90*0.7) = 62` while the claimed damped floor is 63 (the literal 0.7
is not exactly representable in binary64).  For non-negative integers the
claimed floor equals integer division: `floor((t/s)*r) = (t*r)/s`. -/
theorem estimate_exact_floor_counterexample :
    (UrlFinder.initial_scan exWebFloat exFloatUrl).map
        (fun r => (r.1, r.2.length)) = some (46 + 116, 46) ∧
    (13 * 27) / 3 = 117 ∧
    (UrlFinder2.initial_scan_for_count exWebFloat2 exFloatUrl2).map
        (fun r => (r.1, r.2.length)) = some (107 + 62, 107) ∧
    (1 * 90 * 7) / 10 = 63 := by
  decide

/-- C6 (amended): when at least one sample fetch succeeds, the estimate is
the number of URLs discovered so far plus the binary64 evaluation of
(total new links / successful samples) * (first-level link count - sample
size), truncated by `int` — each division, int-to-float conversion and
product correctly rounded once, with url_finder2.py further multiplying by
the binary64 value of the literal 0.7 before truncating; this matches the
claimed exact floor only up to float rounding.  When no sample fetch
succeeds, and likewise when no new links were found, the estimate is exactly
the discovered count.  The successful sample count never exceeds the sample
size. -/
theorem estimate_formula :
    (∀ (web : Str → Option (List Str)) (url : Str) (main_page_links : List Str),
       web url = some main_page_links →
       (0 < (UrlFinder.scan_samples web
              (main_page_links.take (min 5 main_page_links.length))
              (UrlFinder.set_union (UrlFinder.set_insert url []) main_page_links)).2.1 →
         UrlFinder.initial_scan web url = some
           ((UrlFinder.scan_samples web
              (main_page_links.take (min 5 main_page_links.length))
              (UrlFinder.set_union (UrlFinder.set_insert url []) main_page_links)).2.2.length +
            fpTrunc (fpMul
              (fpDivNat
                (UrlFinder.scan_samples web
                  (main_page_links.take (min 5 main_page_links.length))
                  (UrlFinder.set_union (UrlFinder.set_insert url []) main_page_links)).1
                (UrlFinder.scan_samples web
                  (main_page_links.take (min 5 main_page_links.length))
                  (UrlFinder.set_union (UrlFinder.set_insert url []) main_page_links)).2.1)
              (fpOfNat (main_page_links.length - min 5 main_page_links.length))),
            (UrlFinder.scan_samples web
              (main_page_links.take (min 5 main_page_links.length))
              (UrlFinder.set_union (UrlFinder.set_insert url []) main_page_links)).2.2)) ∧
       ((UrlFinder.scan_samples web
           (main_page_links.take (min 5 main_page_links.length))
           (UrlFinder.set_union (UrlFinder.set_insert url []) main_page_links)).2.1 = 0 →
         UrlFinder.initial_scan web url = some
           ((UrlFinder.scan_samples web
              (main_page_links.take (min 5 main_page_links.length))
              (UrlFinder.set_union (UrlFinder.set_insert url []) main_page_links)).2.2.length,
            (UrlFinder.scan_samples web
              (main_page_links.take (min 5 main_page_links.length))
              (UrlFinder.set_union (UrlFinder.set_insert url []) main_page_links)).2.2)) ∧
       ((UrlFinder.scan_samples web
           (main_page_links.take (min 5 main_page_links.length))
           (UrlFinder.set_union (UrlFinder.set_insert url []) main_page_links)).1 = 0 →
         UrlFinder.initial_scan web url = some
           ((UrlFinder.scan_samples web
              (main_page_links.take (min 5 main_page_links.length))
              (UrlFinder.set_union (UrlFinder.set_insert url []) main_page_links)).2.2.length,
            (UrlFinder.scan_samples web
              (main_page_links.take (min 5 main_page_links.length))
              (UrlFinder.set_union (UrlFinder.set_insert url []) main_page_links)).2.2)) ∧
       (UrlFinder.scan_samples web
          (main_page_links.take (min 5 main_page_links.length))
          (UrlFinder.set_union (UrlFinder.set_insert url []) main_page_links)).2.1 ≤
         min 5 main_page_links.length) ∧
    (∀ (web : Str → Option (List Str)) (url : Str) (main_links : List Str),
       web url = some main_links →
       (0 < (UrlFinder.scan_samples web (main_links.take (min 15 main_links.length))
              (UrlFinder.set_insert url (UrlFinder.set_union [] main_links))).2.1 →
         UrlFinder2.initial_scan_for_count web url = some
           ((UrlFinder.scan_samples web (main_links.take (min 15 main_links.length))
              (UrlFinder.set_insert url (UrlFinder.set_union [] main_links))).2.2.length +
            fpTrunc (fpMul (fpMul
              (fpDivNat
                (UrlFinder.scan_samples web (main_links.take (min 15 main_links.length))
                  (UrlFinder.set_insert url (UrlFinder.set_union [] main_links))).1
                (UrlFinder.scan_samples web (main_links.take (min 15 main_links.length))
                  (UrlFinder.set_insert url (UrlFinder.set_union [] main_links))).2.1)
              (fpOfNat (main_links.length - min 15 main_links.length))) (fpDivNat 7 10)),
            (UrlFinder.scan_samples web (main_links.take (min 15 main_links.length))
              (UrlFinder.set_insert url (UrlFinder.set_union [] main_links))).2.2)) ∧
       ((UrlFinder.scan_samples web (main_links.take (min 15 main_links.length))
           (UrlFinder.set_insert url (UrlFinder.set_union [] main_links))).2.1 = 0 →
         UrlFinder2.initial_scan_for_count web url = some
           ((UrlFinder.scan_samples web (main_links.take (min 15 main_links.length))
              (UrlFinder.set_insert url (UrlFinder.set_union [] main_links))).2.2.length,
            (UrlFinder.scan_samples web (main_links.take (min 15 main_links.length))
              (UrlFinder.set_insert url (UrlFinder.set_union [] main_links))).2.2)) ∧
       ((UrlFinder.scan_samples web (main_links.take (min 15 main_links.length))
           (UrlFinder.set_insert url (UrlFinder.set_union [] main_links))).1 = 0 →
         UrlFinder2.initial_scan_for_count web url = some
           ((UrlFinder.scan_samples web (main_links.take (min 15 main_links.length))
              (UrlFinder.set_insert url (UrlFinder.set_union [] main_links))).2.2.length,
            (UrlFinder.scan_samples web (main_links.take (min 15 main_links.length))
              (UrlFinder.set_insert url (UrlFinder.set_union [] main_links))).2.2))) := by
  constructor
  · intro web url main_page_links hweb
    refine ⟨?_, ?_, ?_, ?_⟩
    · intro hpos
      simp only [UrlFinder.initial_scan, hweb]
      rw [if_pos hpos]
    · intro hzero
      simp only [UrlFinder.initial_scan, hweb]
      rw [if_neg (by rw [hzero]; exact lt_irrefl 0)]
    · intro htot
      simp only [UrlFinder.initial_scan, hweb]
      by_cases hpos : 0 < (UrlFinder.scan_samples web
          (main_page_links.take (min 5 main_page_links.length))
          (UrlFinder.set_union (UrlFinder.set_insert url []) main_page_links)).2.1
      · rw [if_pos hpos, htot, fpDivNat_zero_left, fpMul_zero_left, fpTrunc_zero,
          Nat.add_zero]
      · rw [if_neg hpos]
    · calc (UrlFinder.scan_samples web
          (main_page_links.take (min 5 main_page_links.length))
          (UrlFinder.set_union (UrlFinder.set_insert url []) main_page_links)).2.1
          ≤ (main_page_links.take (min 5 main_page_links.length)).length :=
            UrlFinder.scan_samples_succ_le web _ _
        _ ≤ min 5 main_page_links.length := by
            rw [List.length_take]
            exact min_le_left _ _
  · intro web url main_links hweb
    refine ⟨?_, ?_, ?_⟩
    · intro hpos
      simp only [UrlFinder2.initial_scan_for_count, hweb]
      rw [if_pos hpos]
    · intro hzero
      simp only [UrlFinder2.initial_scan_for_count, hweb]
      rw [if_neg (by rw [hzero]; exact lt_irrefl 0)]
    · intro htot
      simp only [UrlFinder2.initial_scan_for_count, hweb]
      by_cases hpos : 0 < (UrlFinder.scan_samples web
          (main_links.take (min 15 main_links.length))
          (UrlFinder.set_insert url (UrlFinder.set_union [] main_links))).2.1
      · rw [if_pos hpos, htot, fpDivNat_zero_left, fpMul_zero_left,
          fpMul_zero_left, fpTrunc_zero, Nat.add_zero]
      · rw [if_neg hpos]

/-- C6 (witness): the estimate of the concrete two-link site, via the
theorem with its fetch hypothesis and sample-success hypothesis discharged
concretely. -/
theorem estimate_formula_witness :
    UrlFinder.initial_scan exWebEstimate "https://e.com".toList = some
      ((UrlFinder.scan_samples exWebEstimate
         (["https://e.com/a".toList, "https://e.com/b".toList].take
           (min 5 ["https://e.com/a".toList, "https://e.com/b".toList].length))
         (UrlFinder.set_union (UrlFinder.set_insert "https://e.com".toList [])
           ["https://e.com/a".toList, "https://e.com/b".toList])).2.2.length +
       fpTrunc (fpMul
         (fpDivNat
           (UrlFinder.scan_samples exWebEstimate
             (["https://e.com/a".toList, "https://e.com/b".toList].take
               (min 5 ["https://e.com/a".toList, "https://e.com/b".toList].length))
             (UrlFinder.set_union (UrlFinder.set_insert "https://e.com".toList [])
               ["https://e.com/a".toList, "https://e.com/b".toList])).1
           (UrlFinder.scan_samples exWebEstimate
             (["https://e.com/a".toList, "https://e.com/b".toList].take
               (min 5 ["https://e.com/a".toList, "https://e.com/b".toList].length))
             (UrlFinder.set_union (UrlFinder.set_insert "https://e.com".toList [])
               ["https://e.com/a".toList, "https://e.com/b".toList])).2.1)
         (fpOfNat (["https://e.com/a".toList, "https://e.com/b".toList].length -
           min 5 ["https://e.com/a".toList, "https://e.com/b".toList].length))),
       (UrlFinder.scan_samples exWebEstimate
         (["https://e.com/a".toList, "https://e.com/b".toList].take
           (min 5 ["https://e.com/a".toList, "https://e.com/b".toList].length))
         (UrlFinder.set_union (UrlFinder.set_insert "https://e.com".toList [])
           ["https://e.com/a".toList, "https://e.com/b".toList])).2.2) :=
  ((estimate_formula.1 exWebEstimate "https://e.com".toList
      ["https://e.com/a".toList, "https://e.com/b".toList] rfl).1) (by decide)


/-- C7: the claimed 2xx-equivalence is false on the code: a final response
with the 2xx success status 204 yields no content, because
`get_page_content` returns the body only on status 200 exactly. -/
theorem fetch_2xx_counterexample :
    UrlFinder.get_page_content (.response 204 "ok".toList) = none ∧
    200 ≤ 204 ∧ 204 < 300 := by
  decide

/-- C7 (amended): `get_page_content` returns the page body if and only if the
final response status is exactly 200; every other status, and every raised
exception (network failure or timeout), yields `None` instead of content, and
the function is total — no exception escapes the fetch boundary. -/
theorem fetch_success_iff_200 :
    (∀ (status : Nat) (body : Str),
       UrlFinder.get_page_content (.response status body) = some body ↔ status = 200) ∧
    UrlFinder.get_page_content .failure = none ∧
    (∀ (r : UrlFinder.FetchResult) (body : Str),
       UrlFinder.get_page_content r = some body → r = .response 200 body) := by
  refine ⟨?_, rfl, ?_⟩
  · intro status body
    constructor
    · intro h
      by_cases hs : status = 200
      · exact hs
      · rw [UrlFinder.get_page_content, if_neg hs] at h
        exact absurd h (by simp)
    · intro h
      subst h
      rfl
  · intro r body h
    cases r with
    | response status b =>
      by_cases hs : status = 200
      · subst hs
        rw [UrlFinder.get_page_content, if_pos rfl] at h
        injection h with h1
        rw [h1]
      · rw [UrlFinder.get_page_content, if_neg hs] at h
        exact absurd h (by simp)
    | failure => exact absurd h (by simp [UrlFinder.get_page_content])

/-- C7 (witness): a concrete 200 response yields its body. -/
theorem fetch_success_iff_200_witness :
    UrlFinder.get_page_content (.response 200 "ok".toList) = some "ok".toList :=
  (fetch_success_iff_200.1 200 "ok".toList).mpr rfl

/-- C8: the claimed self-exclusion is false on the code: a meta-refresh
target that resolves to the base URL itself is returned by the link
extractor, because the meta-refresh branch performs no comparison with the
base URL. -/
theorem meta_refresh_self_counterexample :
    memB "https://example.com/page".toList
      (UrlFinder.extract_links_from_page "example.com".toList "example.com".toList
        "https://example.com/page".toList []
        (some "https://example.com/page".toList)) = true := by
  decide

/-- C8 (amended): every link the extractor derives from an anchor or link tag
differs from the base URL (the `clean_url != url` check), but a link derived
from the meta-refresh target is only filtered by the domain check, so any
extracted link either differs from the base URL or is the resolved
meta-refresh target. -/
theorem extract_excludes_base_anchors :
    (∀ (bd sd url : Str) (hrefs : List Str),
       ∀ l ∈ UrlFinder.extract_links_from_page bd sd url hrefs none, l ≠ url) ∧
    (∀ (bd sd url target : Str) (hrefs : List Str),
       ∀ l ∈ UrlFinder.extract_links_from_page bd sd url hrefs (some target),
         l ≠ url ∨ l = pyUrljoin url target) := by
  constructor
  · intro bd sd url hrefs l hl
    simp only [UrlFinder.extract_links_from_page] at hl
    rcases List.mem_filterMap.mp hl with ⟨a, ha, hal⟩
    exact UrlFinder.anchor_link_ne_base bd sd url a l hal
  · intro bd sd url target hrefs l hl
    simp only [UrlFinder.extract_links_from_page] at hl
    by_cases hsd : UrlFinder.is_same_domain bd sd (pyUrljoin url target) = true
    · rw [if_pos hsd] at hl
      rcases List.mem_append.mp hl with hl | hl
      · rcases List.mem_filterMap.mp hl with ⟨a, ha, hal⟩
        exact Or.inl (UrlFinder.anchor_link_ne_base bd sd url a l hal)
      · simp only [List.mem_singleton] at hl
        exact Or.inr hl
    · rw [if_neg hsd] at hl
      rcases List.mem_filterMap.mp hl with ⟨a, ha, hal⟩
      exact Or.inl (UrlFinder.anchor_link_ne_base bd sd url a l hal)

/-- C8 (witness): a concrete extracted anchor link differs from its base. -/
theorem extract_excludes_base_anchors_witness :
    "https://example.com/a".toList ≠ "https://example.com/page".toList :=
  extract_excludes_base_anchors.1 "example.com".toList "example.com".toList
    "https://example.com/page".toList ["/a".toList]
    "https://example.com/a".toList (by decide)

/-- C9: the claimed two-class top-level partition is false on the code: a
same-host extension-less path is classified as SUBDIRECTORY, a primary class
distinct from SUBDOMAIN and PAGE. -/
theorem primary_subdirectory_counterexample :
    (UrlFinder.classify_url "example.com".toList "example.com".toList
       "https://example.com/docs".toList).cls = .subdirectory ∧
    UrlFinder.UrlClass.subdirectory ≠ .subdomain ∧
    UrlFinder.UrlClass.subdirectory ≠ .page := by
  decide

/-- C9 (amended): every visited URL is classified into exactly one of
{SUBDOMAIN, SUBDIRECTORY, PAGE} — SUBDIRECTORY being a primary class — and a
same-host URL whose trailing-slash-trimmed path is empty (the site root) is
classified as a PAGE, registering nothing. -/
theorem classification_partition :
    (∀ (exts : List Str) (sd bd url : Str),
       (UrlFinder.classify_url_with exts sd bd url).cls = .subdomain ∨
       (UrlFinder.classify_url_with exts sd bd url).cls = .subdirectory ∨
       (UrlFinder.classify_url_with exts sd bd url).cls = .page) ∧
    (∀ (sd bd url : Str), (pyUrlparse url).netloc = sd →
       rstripChar '/' (pyUrlparse url).path = [] →
       UrlFinder.classify_url sd bd url = ⟨.page, [], [], []⟩) := by
  constructor
  · intro exts sd bd url
    cases h : (UrlFinder.classify_url_with exts sd bd url).cls with
    | subdomain => exact Or.inl rfl
    | subdirectory => exact Or.inr (Or.inl rfl)
    | page => exact Or.inr (Or.inr rfl)
  · intro sd bd url hdom hpath
    simp only [UrlFinder.classify_url, UrlFinder.classify_url_with]
    rw [if_neg (fun hh => hh.1 hdom), if_neg (fun hp => hp hpath)]

/-- C9 (witness): the site root of a concrete seed is classified PAGE. -/
theorem classification_partition_witness :
    UrlFinder.classify_url "example.com".toList "example.com".toList
      "https://example.com/".toList = ⟨.page, [], [], []⟩ :=
  classification_partition.2 "example.com".toList "example.com".toList
    "https://example.com/".toList (by decide) (by decide)

/-- C10: when the seed host has fewer than two dot-separated labels, the
registrable-domain extraction returns the whole host unchanged, so the base
domain used for scope and subdomain decisions equals the seed host; this
holds for both `extract_base_domain` of Url_finder.py and `get_base_domain`
of url_scraper.py. -/
theorem single_label_base_domain :
    (∀ url : Str, (splitOnChar '.' (pyUrlparse url).netloc).length < 2 →
       UrlFinder.extract_base_domain url = (pyUrlparse url).netloc ∧
       UrlFinder.extract_base_domain url = UrlFinder.extract_domain url) ∧
    (∀ domain : Str, (splitOnChar '.' domain).length < 2 →
       UrlScraper.get_base_domain domain = domain) := by
  constructor
  · intro url h
    constructor
    · simp only [UrlFinder.extract_base_domain]
      rw [if_neg (by omega)]
    · simp only [UrlFinder.extract_base_domain, UrlFinder.extract_domain]
      rw [if_neg (by omega)]
  · intro domain h
    simp only [UrlScraper.get_base_domain]
    rw [if_neg (by omega)]

/-- C10 (witness): the single-label host `localhost`. -/
theorem single_label_base_domain_witness :
    UrlFinder.extract_base_domain "https://localhost/a".toList =
      (pyUrlparse "https://localhost/a".toList).netloc ∧
    UrlScraper.get_base_domain "localhost".toList = "localhost".toList :=
  ⟨(single_label_base_domain.1 "https://localhost/a".toList (by decide)).1,
   single_label_base_domain.2 "localhost".toList (by decide)⟩
